import Mathlib

/-!
# The GCP identity-token authorization plugin

A shallow embedding of `plugins/required_header/pkg/impl.go` and the properties of its
two entry points, `GetAuthService` and `Authorize`.

Conventions of the embedding:

* a Go `string` is a Lean `String`;
* a Go pointer that the code may receive as `nil` is an `Option`;
* a Go `map[string]bool` is an association list with one entry per key (`GoMap`);
* the values built by the external package `api` and the answer of the external call
  `metadata.Get` are parameters of `Authorize`;
* logging has no effect on any returned value and is left out.
-/

set_option autoImplicit false

namespace RequiredHeader

/-! ## Go values -/

/-- A Go `error` value, by the ways one can arise in this package. -/
inductive GoError
  /-- Built by `errors.New(s)`. -/
  | errorString (s : String)
  /-- The `metadata.NotDefinedError` of a missing metadata key. -/
  | NotDefinedError (suffix : String)
  /-- The `*metadata.Error` of a response whose status is not 200. -/
  | MetadataError (code : Nat) (message : String)
  /-- Any transport failure: connection refused, timeout, unreadable body. -/
  | transport (description : String)
  deriving DecidableEq, Repr

/-- The struct `Config`. -/
structure Config where
  RequiredHeader : String
  AllowedValues : List String
  deriving DecidableEq, Repr

/-- The dynamic value held by an `interface{}`, as far as `GetAuthService` can tell values
apart: the nil interface, a `*Config` (itself possibly a nil pointer), or a value of any
other dynamic type, given by the name `%T` prints for it. -/
inductive Interface
  | nil
  | ptrConfig (p : Option Config)
  | other (typeName : String)
  deriving DecidableEq, Repr

/-- The text that the verb `%T` prints for a value. -/
def Interface.typeName : Interface → String
  | .nil => "<nil>"
  | .ptrConfig _ => "*pkg.Config"
  | .other t => t

/-- A Go `map[string]bool`: at most one entry per key. -/
abbrev GoMap := List (String × Bool)

/-- The assignment `m[k] = v`: overwrites the entry of `k` if there is one, adds it otherwise. -/
def GoMap.assign : GoMap → String → Bool → GoMap
  | [], k, v => [(k, v)]
  | (k0, v0) :: rest, k, v =>
    if k0 = k then (k, v) :: rest else (k0, v0) :: GoMap.assign rest k v

/-- The two-result lookup `v, ok := m[k]`, as an option. -/
def GoMap.get? : GoMap → String → Option Bool
  | [], _ => none
  | (k0, v0) :: rest, k => if k0 = k then some v0 else GoMap.get? rest k

/-- The index expression `m[k]`: the zero value `false` for an absent key. -/
def GoMap.index (m : GoMap) (k : String) : Bool :=
  (GoMap.get? m k).getD false

/-- The builtin `len(m)`. -/
def GoMap.len (m : GoMap) : Nat :=
  List.length m

/-- The keys of a map. -/
def GoMap.keys (m : GoMap) : List String :=
  List.map Prod.fst m

/-! ## `fmt.Sprintf` -/

/-- An operand of `fmt.Sprintf`: a string, or a value held in an `interface{}`. -/
inductive Operand
  | str (s : String)
  | dyn (v : Interface)
  deriving DecidableEq, Repr

/-- The text `type=value` by which `fmt` names an operand in its diagnostics. The value of
an interface operand is not part of the embedding, so such an operand is named by its type
alone. -/
def operandText : Operand → List Char
  | .str s => "string=".toList ++ s.toList
  | .dyn v => v.typeName.toList

/-- The text one operand contributes under a verb. The package uses `%s` on a string and
`%T` on an interface value; `%v` on a string prints it as `%s` does. Any other verb is
reported as a bad verb, `%!verb(type=value)`. -/
def verbText (verb : Char) (a : Operand) : List Char :=
  if verb = 'T' then
    match a with
    | .str _ => "string".toList
    | .dyn v => v.typeName.toList
  else
    match a with
    | .str s =>
      if verb = 's' ∨ verb = 'v' then s.toList
      else "%!".toList ++ [verb] ++ "(".toList ++ operandText a ++ ")".toList
    | .dyn _ => "%!".toList ++ [verb] ++ "(".toList ++ operandText a ++ ")".toList

/-- The operands of a list, named as in a diagnostic and separated by `, `. -/
def operandTexts : List Operand → List Char
  | [] => []
  | [a] => operandText a
  | a :: b :: rest => operandText a ++ ", ".toList ++ operandTexts (b :: rest)

/-- The diagnostic `%!(EXTRA type=value, ...)` that ends the output when operands are left
over; nothing when all were consumed. -/
def extraText : List Operand → List Char
  | [] => []
  | a :: rest => "%!(EXTRA ".toList ++ operandTexts (a :: rest) ++ ")".toList

/-- The scan of a format string. The flag tells whether the previous character was an
unfinished `%`. Literal characters are copied, `%%` gives one `%`, and any other character
after `%` is a verb that consumes the next operand (`%!verb(MISSING)` when none is left).
At the end of the format the operands left over are reported. -/
def SprintfAux : Bool → List Char → List Operand → List Char
  | false, [], ops => extraText ops
  | true, [], ops => "%!(NOVERB)".toList ++ extraText ops
  | false, ch :: rest, ops =>
    if ch = '%' then SprintfAux true rest ops else ch :: SprintfAux false rest ops
  | true, ch :: rest, ops =>
    if ch = '%' then '%' :: SprintfAux false rest ops
    else
      match ops with
      | [] => "%!".toList ++ [ch] ++ "(MISSING)".toList ++ SprintfAux false rest []
      | a :: ops => verbText ch a ++ SprintfAux false rest ops

/-- The function `fmt.Sprintf`, on the verbs above. -/
def Sprintf (format : String) (ops : List Operand) : String :=
  String.mk (SprintfAux false format.toList ops)

/-! ## Configuration and service construction -/

/-- The package variable `UnexpectedConfigError`. -/
def UnexpectedConfigError (typ : Interface) : GoError :=
  GoError.errorString (Sprintf "unexpected config type %T" [Operand.dyn typ])

/-- The struct `RequiredHeaderAuthService`. -/
structure RequiredHeaderAuthService where
  RequiredHeader : String
  AllowedValues : GoMap
  deriving DecidableEq, Repr

/-- How a call ends: with the operands of a `return` statement, or in a run-time panic. -/
inductive Outcome (α : Type)
  | returned (values : α)
  | panicked
  deriving DecidableEq, Repr

/-- The method `NewConfigInstance`: a pointer to a zero `Config`, and a nil error. -/
def NewConfigInstance : Interface × Option GoError :=
  (Interface.ptrConfig (some { RequiredHeader := "", AllowedValues := [] }), none)

/-- The loop `for _, v := range values { valueMap[v] = true }`, from the map `valueMap`. -/
def rangeAssign (valueMap : GoMap) (values : List String) : GoMap :=
  List.foldl (fun m v => GoMap.assign m v true) valueMap values

/-- The method `GetAuthService`. The type assertion `configInstance.(*Config)` succeeds for
every `*Config`, the nil pointer included; the fields of `config` are then read, which
panics on the nil pointer. -/
def GetAuthService (configInstance : Interface) :
    Outcome (Option RequiredHeaderAuthService × Option GoError) :=
  match configInstance with
  | .ptrConfig p =>
    match p with
    | none => .panicked
    | some config =>
      let valueMap := rangeAssign [] config.AllowedValues
      .returned (some { RequiredHeader := config.RequiredHeader, AllowedValues := valueMap }, none)
  | _ => .returned (none, some (UnexpectedConfigError configInstance))

/-! ## Requests and responses -/

/-- The message `AttributeContext_HttpRequest` of the Envoy check request. -/
structure HttpRequest where
  Id : String
  Method : String
  Headers : List (String × String)
  Path : String
  Host : String
  Scheme : String
  Query : String
  Fragment : String
  Size : Int
  Protocol : String
  Body : String
  deriving DecidableEq, Repr

/-- The message `AttributeContext_Request`. -/
structure AttributeContextRequest where
  Http : Option HttpRequest
  deriving DecidableEq, Repr

/-- The message `AttributeContext`. -/
structure AttributeContext where
  Request : Option AttributeContextRequest
  ContextExtensions : List (String × String)
  deriving DecidableEq, Repr

/-- The message `CheckRequest`. -/
structure CheckRequest where
  Attributes : Option AttributeContext
  deriving DecidableEq, Repr

/-- The struct `api.AuthorizationRequest`. -/
structure AuthorizationRequest where
  CheckRequest : Option CheckRequest
  deriving DecidableEq, Repr

/-- The generated getter `(*CheckRequest).GetAttributes`: nil on a nil receiver. -/
def GetAttributes (x : Option CheckRequest) : Option AttributeContext :=
  match x with
  | none => none
  | some m => m.Attributes

/-- The generated getter `(*AttributeContext).GetRequest`: nil on a nil receiver. -/
def GetRequest (x : Option AttributeContext) : Option AttributeContextRequest :=
  match x with
  | none => none
  | some m => m.Request

/-- The generated getter `(*AttributeContext_Request).GetHttp`: nil on a nil receiver. -/
def GetHttp (x : Option AttributeContextRequest) : Option HttpRequest :=
  match x with
  | none => none
  | some m => m.Http

/-- The generated getter `(*AttributeContext_HttpRequest).GetHost`: the empty string on a
nil receiver. -/
def GetHost (x : Option HttpRequest) : String :=
  match x with
  | none => ""
  | some m => m.Host

/-- The message `HeaderValue`. -/
structure HeaderValue where
  Key : String
  Value : String
  deriving DecidableEq, Repr

/-- The message `HeaderValueOption`. -/
structure HeaderValueOption where
  Header : Option HeaderValue
  Append : Option Bool := none
  deriving DecidableEq, Repr

/-- The message `OkHttpResponse`. -/
structure OkHttpResponse where
  Headers : List HeaderValueOption := []
  HeadersToRemove : List String := []
  deriving DecidableEq, Repr

/-- The message `DeniedHttpResponse`. -/
structure DeniedHttpResponse where
  Status : Option Nat := none
  Headers : List HeaderValueOption := []
  Body : String := ""
  deriving DecidableEq, Repr

/-- The oneof field `CheckResponse.HttpResponse`. -/
inductive CheckResponseHttpResponse
  | DeniedResponse (d : DeniedHttpResponse)
  | OkResponse (o : OkHttpResponse)
  deriving DecidableEq, Repr

/-- The message `status.Status`. -/
structure Status where
  Code : Int
  Message : String := ""
  deriving DecidableEq, Repr

/-- The message `CheckResponse`. -/
structure CheckResponse where
  Status : Option Status
  HttpResponse : Option CheckResponseHttpResponse
  deriving DecidableEq, Repr

/-- The struct `api.AuthorizationResponse`, with its `UserInfo.UserID` as one field. -/
structure AuthorizationResponse where
  UserID : String := ""
  CheckResponse : CheckResponse
  deriving DecidableEq, Repr

/-- The two constructors of the external package `api` that `Authorize` calls. Each call
yields a fresh copy of the same value. -/
structure Api where
  AuthorizedResponse : AuthorizationResponse
  UnauthorizedResponse : AuthorizationResponse
  deriving DecidableEq, Repr

/-- The variable `rewrittenHost`, which `Authorize` assigns with `=` and does not declare. -/
structure Vars where
  rewrittenHost : String
  deriving DecidableEq, Repr

/-! ## The decision function -/

/-- What one execution of the body of `Authorize` leaves behind. -/
structure AuthorizeRun where
  /-- True when the body panicked (nil `request`). -/
  panicked : Bool
  /-- The receiver after the call. -/
  receiver : RequiredHeaderAuthService
  /-- The variable `rewrittenHost` after the call. -/
  vars : Vars
  /-- The arguments of the calls to `metadata.Get`, in order. -/
  requested : List String
  /-- The local `response` when the body ends, if it was assigned. -/
  response : Option AuthorizationResponse
  /-- The operands of the `return` statement that ended the body; `none` when the body
  ended without executing one. -/
  returned : Option (AuthorizationResponse × Option GoError)
  deriving DecidableEq, Repr

/-- The method `Authorize`, statement by statement. `Get` is the answer of `metadata.Get`
to each argument. A nil `request` panics at the field read `request.CheckRequest`; the
receiver `c` is never dereferenced. The only `return` statement is the one of the error
branch: after the assignment to `response.CheckResponse.HttpResponse` the body ends. -/
def Authorize (api : Api) (Get : String → Except GoError String)
    (c : RequiredHeaderAuthService) (vars : Vars) (request : Option AuthorizationRequest) :
    AuthorizeRun :=
  match request with
  | none =>
    { panicked := true, receiver := c, vars := vars, requested := [], response := none,
      returned := none }
  | some request =>
    let rewrittenHost := GetHost (GetHttp (GetRequest (GetAttributes request.CheckRequest)))
    let vars := { vars with rewrittenHost := rewrittenHost }
    let tokenURL := Sprintf "/instance/service-accounts/default/identity?audience=%s"
      [Operand.str ("https://" ++ rewrittenHost)]
    match Get tokenURL with
    | .error _ =>
      { panicked := false, receiver := c, vars := vars, requested := [tokenURL],
        response := none, returned := some (api.UnauthorizedResponse, none) }
    | .ok idToken =>
      let response := api.AuthorizedResponse
      let response := { response with
        CheckResponse := { response.CheckResponse with
          HttpResponse := some (CheckResponseHttpResponse.OkResponse
            { Headers := [{ Header := some { Key := "Bearer: ", Value := idToken } }] }) } }
      { panicked := false, receiver := c, vars := vars, requested := [tokenURL],
        response := some response, returned := none }

/-- The method `Start`: a no-op that returns a nil error. -/
def Start : Option GoError :=
  none

/-! ## Values used to evaluate the definitions -/

/-- A concrete `api`, as the two constructors of the package build their values: an OK
status for `AuthorizedResponse` and a PERMISSION_DENIED status for `UnauthorizedResponse`,
each with a nil `HttpResponse`. -/
def sampleApi : Api :=
  { AuthorizedResponse :=
      { CheckResponse := { Status := some { Code := 0 }, HttpResponse := none } },
    UnauthorizedResponse :=
      { CheckResponse := { Status := some { Code := 7 }, HttpResponse := none } } }

/-- A request for the given host, with the given headers, method and path. -/
def requestFor (host : String) (headers : List (String × String)) (method path : String) :
    AuthorizationRequest :=
  let http : HttpRequest :=
    { Id := "1", Method := method, Headers := headers, Path := path, Host := host,
      Scheme := "https", Query := "", Fragment := "", Size := 0, Protocol := "HTTP/1.1",
      Body := "" }
  let attributes : AttributeContext :=
    { Request := some { Http := some http }, ContextExtensions := [] }
  { CheckRequest := some { Attributes := some attributes } }

/-- A token provider that answers every request with the same token. -/
def alwaysToken (token : String) : String → Except GoError String :=
  fun _ => Except.ok token

/-- A token provider that fails every request with the same error. -/
def alwaysFail (e : GoError) : String → Except GoError String :=
  fun _ => Except.error e


/-- The service of a configuration with header `x-api-key` and values `a`, `b`. -/
def sampleService : RequiredHeaderAuthService :=
  { RequiredHeader := "x-api-key", AllowedValues := [("a", true), ("b", true)] }

/-- An initial content of the variable `rewrittenHost`. -/
def sampleVars : Vars :=
  { rewrittenHost := "" }

/-- The target host of a request, as `Authorize` reads it through the nil-safe getters. -/
def targetHost (request : AuthorizationRequest) : String :=
  GetHost (GetHttp (GetRequest (GetAttributes request.CheckRequest)))

/-! ## URL-encoding, for comparison with the interface description

`Authorize` calls no encoder. The definitions of this section state what a URL-encoded
audience would be, so that the path the code builds can be compared with it. -/

/-- The characters that URL-encoding leaves alone: letters, digits, `-`, `_`, `.`, `~`. -/
def isUnreserved (ch : Char) : Bool :=
  ch.isAlphanum || ch = '-' || ch = '_' || ch = '.' || ch = '~'

/-- The bytes of the UTF-8 encoding of a character. -/
def utf8Bytes (ch : Char) : List Nat :=
  let v := ch.toNat
  if v < 128 then [v]
  else if v < 2048 then [192 + v / 64, 128 + v % 64]
  else if v < 65536 then [224 + v / 4096, 128 + v / 64 % 64, 128 + v % 64]
  else [240 + v / 262144, 128 + v / 4096 % 64, 128 + v / 64 % 64, 128 + v % 64]

/-- The upper-case hexadecimal digit of a number below 16. -/
def hexDigit (n : Nat) : Char :=
  "0123456789ABCDEF".toList.getD n '0'

/-- The escape `%XY` of one byte. -/
def percentByte (b : Nat) : List Char :=
  ['%', hexDigit (b / 16), hexDigit (b % 16)]

/-- URL-encoding of a list of characters: unreserved characters are kept, every other
character becomes the escapes of its bytes. -/
def urlEncodeChars : List Char → List Char
  | [] => []
  | ch :: rest =>
    (if isUnreserved ch then [ch] else List.flatten (List.map percentByte (utf8Bytes ch)))
      ++ urlEncodeChars rest

/-- URL-encoding of a string. -/
def urlEncode (s : String) : String :=
  String.mk (urlEncodeChars s.toList)

/-! ## Lemmas on `fmt.Sprintf` -/

theorem SprintfAux_literal (p rest : List Char) (ops : List Operand)
    (hp : ∀ ch ∈ p, ch ≠ '%') :
    SprintfAux false (p ++ rest) ops = p ++ SprintfAux false rest ops := by
  induction p with
  | nil => rfl
  | cons ch p ih =>
    have hch : ch ≠ '%' := hp ch (List.mem_cons_self ch p)
    have hrest : ∀ x ∈ p, x ≠ '%' := fun x hx => hp x (List.mem_cons_of_mem ch hx)
    simp [SprintfAux, hch, ih hrest]

theorem SprintfAux_verb_s (a : String) :
    SprintfAux false ['%', 's'] [Operand.str a] = a.toList := by
  simp [SprintfAux, verbText, extraText]

/-- The format of `tokenURL` prints its literal text followed by the operand, unchanged. -/
theorem Sprintf_tokenURL (a : String) :
    Sprintf "/instance/service-accounts/default/identity?audience=%s" [Operand.str a]
      = "/instance/service-accounts/default/identity?audience=" ++ a := by
  have hsplit : "/instance/service-accounts/default/identity?audience=%s".toList
      = "/instance/service-accounts/default/identity?audience=".toList ++ ['%', 's'] := by
    decide
  have hlit : ∀ ch ∈ "/instance/service-accounts/default/identity?audience=".toList,
      ch ≠ '%' := by decide
  have key : SprintfAux false
      "/instance/service-accounts/default/identity?audience=%s".toList [Operand.str a]
      = "/instance/service-accounts/default/identity?audience=".toList ++ a.toList := by
    rw [hsplit, SprintfAux_literal _ _ _ hlit, SprintfAux_verb_s]
  apply String.ext
  rw [String.data_append]
  exact key


/-! ## Lemmas on `Authorize` -/

/-- The run of `Authorize` when `metadata.Get` fails. -/
theorem Authorize_of_error (api : Api) (Get : String → Except GoError String)
    (c : RequiredHeaderAuthService) (vars : Vars) (request : AuthorizationRequest)
    (e : GoError)
    (h : Get ("/instance/service-accounts/default/identity?audience="
      ++ ("https://" ++ targetHost request)) = Except.error e) :
    Authorize api Get c vars (some request) =
      { panicked := false, receiver := c, vars := { rewrittenHost := targetHost request },
        requested := ["/instance/service-accounts/default/identity?audience="
          ++ ("https://" ++ targetHost request)],
        response := none, returned := some (api.UnauthorizedResponse, none) } := by
  unfold targetHost at h ⊢
  simp only [Authorize, Sprintf_tokenURL, h]

/-- The run of `Authorize` when `metadata.Get` answers with a token. -/
theorem Authorize_of_ok (api : Api) (Get : String → Except GoError String)
    (c : RequiredHeaderAuthService) (vars : Vars) (request : AuthorizationRequest)
    (idToken : String)
    (h : Get ("/instance/service-accounts/default/identity?audience="
      ++ ("https://" ++ targetHost request)) = Except.ok idToken) :
    Authorize api Get c vars (some request) =
      { panicked := false, receiver := c, vars := { rewrittenHost := targetHost request },
        requested := ["/instance/service-accounts/default/identity?audience="
          ++ ("https://" ++ targetHost request)],
        response := some { api.AuthorizedResponse with
          CheckResponse := { api.AuthorizedResponse.CheckResponse with
            HttpResponse := some (CheckResponseHttpResponse.OkResponse
              { Headers := [{ Header := some { Key := "Bearer: ", Value := idToken } }] }) } },
        returned := none } := by
  unfold targetHost at h ⊢
  simp only [Authorize, Sprintf_tokenURL, h]

/-- The calls to `metadata.Get` do not depend on its answers. -/
theorem Authorize_requested (api : Api) (Get : String → Except GoError String)
    (c : RequiredHeaderAuthService) (vars : Vars) (request : AuthorizationRequest) :
    (Authorize api Get c vars (some request)).requested =
      ["/instance/service-accounts/default/identity?audience="
        ++ ("https://" ++ targetHost request)] := by
  cases h : Get ("/instance/service-accounts/default/identity?audience="
      ++ ("https://" ++ targetHost request)) with
  | error e => rw [Authorize_of_error api Get c vars request e h]
  | ok t => rw [Authorize_of_ok api Get c vars request t h]

/-- The append of a fixed string is injective in its second operand. -/
theorem String_append_left_cancel (p a b : String) (h : p ++ a = p ++ b) : a = b := by
  apply String.ext
  have h2 := congrArg String.data h
  rw [String.data_append, String.data_append] at h2
  exact List.append_cancel_left h2


/-! ## Lemmas on maps -/

theorem GoMap.get?_assign (m : GoMap) (k : String) (v : Bool) (k1 : String) :
    GoMap.get? (GoMap.assign m k v) k1 = if k = k1 then some v else GoMap.get? m k1 := by
  induction m with
  | nil => simp [GoMap.assign, GoMap.get?]
  | cons entry rest ih =>
    obtain ⟨k0, v0⟩ := entry
    by_cases h0 : k0 = k
    · subst h0
      by_cases h1 : k0 = k1
      · simp [GoMap.assign, GoMap.get?, h1]
      · simp [GoMap.assign, GoMap.get?, h1]
    · by_cases h1 : k0 = k1
      · subst h1
        have hne : ¬ k = k0 := fun h => h0 h.symm
        simp [GoMap.assign, GoMap.get?, h0, hne]
      · simp [GoMap.assign, GoMap.get?, h0, h1, ih]

theorem GoMap.mem_keys_assign (m : GoMap) (k : String) (v : Bool) (k1 : String) :
    k1 ∈ GoMap.keys (GoMap.assign m k v) ↔ k1 = k ∨ k1 ∈ GoMap.keys m := by
  induction m with
  | nil => simp [GoMap.assign, GoMap.keys]
  | cons entry rest ih =>
    obtain ⟨k0, v0⟩ := entry
    by_cases h0 : k0 = k
    · subst h0
      simp [GoMap.assign, GoMap.keys]
    · have ih2 : k1 ∈ List.map Prod.fst (GoMap.assign rest k v)
          ↔ k1 = k ∨ k1 ∈ List.map Prod.fst rest := ih
      simp only [GoMap.assign, GoMap.keys, h0, if_false, List.map_cons, List.mem_cons, ih2]
      tauto

theorem GoMap.nodup_keys_assign (m : GoMap) (k : String) (v : Bool)
    (h : (GoMap.keys m).Nodup) : (GoMap.keys (GoMap.assign m k v)).Nodup := by
  induction m with
  | nil => simp [GoMap.assign, GoMap.keys]
  | cons entry rest ih =>
    obtain ⟨k0, v0⟩ := entry
    have hcons : k0 ∉ GoMap.keys rest ∧ (GoMap.keys rest).Nodup := by
      simpa [GoMap.keys] using h
    by_cases h0 : k0 = k
    · subst h0
      simpa [GoMap.assign, GoMap.keys] using h
    · have hmem : k0 ∉ GoMap.keys (GoMap.assign rest k v) := by
        rw [GoMap.mem_keys_assign]
        intro hor
        cases hor with
        | inl heq => exact h0 heq
        | inr hin => exact hcons.1 hin
      have hnd := ih hcons.2
      have hshape : GoMap.keys (GoMap.assign ((k0, v0) :: rest) k v)
          = k0 :: GoMap.keys (GoMap.assign rest k v) := by
        simp [GoMap.assign, GoMap.keys, h0]
      rw [hshape]
      exact List.nodup_cons.mpr ⟨hmem, hnd⟩

theorem rangeAssign_get? (values : List String) (m : GoMap) (k1 : String) :
    GoMap.get? (rangeAssign m values) k1
      = if k1 ∈ values then some true else GoMap.get? m k1 := by
  induction values generalizing m with
  | nil => simp [rangeAssign]
  | cons v rest ih =>
    have hstep : rangeAssign m (v :: rest) = rangeAssign (GoMap.assign m v true) rest := rfl
    rw [hstep, ih, GoMap.get?_assign]
    by_cases h1 : k1 ∈ rest
    · simp [h1]
    · by_cases h2 : v = k1
      · simp [h2]
      · have h3 : ¬ k1 = v := fun h => h2 h.symm
        simp [h1, h2, h3]

theorem rangeAssign_mem_keys (values : List String) (m : GoMap) (k1 : String) :
    k1 ∈ GoMap.keys (rangeAssign m values) ↔ k1 ∈ values ∨ k1 ∈ GoMap.keys m := by
  induction values generalizing m with
  | nil => simp [rangeAssign]
  | cons v rest ih =>
    have hstep : rangeAssign m (v :: rest) = rangeAssign (GoMap.assign m v true) rest := rfl
    rw [hstep, ih, GoMap.mem_keys_assign]
    simp only [List.mem_cons]
    tauto

theorem rangeAssign_nodup_keys (values : List String) (m : GoMap)
    (h : (GoMap.keys m).Nodup) : (GoMap.keys (rangeAssign m values)).Nodup := by
  induction values generalizing m with
  | nil => simpa [rangeAssign] using h
  | cons v rest ih =>
    have hstep : rangeAssign m (v :: rest) = rangeAssign (GoMap.assign m v true) rest := rfl
    rw [hstep]
    exact ih _ (GoMap.nodup_keys_assign m v true h)

/-- A map built from the empty map has as many entries as the sequence has distinct elements. -/
theorem rangeAssign_len (values : List String) :
    GoMap.len (rangeAssign [] values) = (List.dedup values).length := by
  have hnd : (GoMap.keys (rangeAssign [] values)).Nodup :=
    rangeAssign_nodup_keys values [] (by simp [GoMap.keys])
  have hperm : List.Perm (GoMap.keys (rangeAssign [] values)) (List.dedup values) := by
    apply (List.perm_ext_iff_of_nodup hnd (List.nodup_dedup values)).mpr
    intro a
    rw [rangeAssign_mem_keys, List.mem_dedup]
    simp [GoMap.keys]
  have hlen := hperm.length_eq
  simpa [GoMap.len, GoMap.keys] using hlen


/-! ## The decision on a provider failure -/

/-- Claim C1: for every request and every error `e` with which `metadata.Get` fails,
`Authorize` returns `api.UnauthorizedResponse()` together with a nil error. The run does not
panic, no `response` carrying a token is built, and the run is the same for every other
failing provider and error, so nothing of the failure cause reaches the decision. -/
theorem Authorize_denies_on_provider_failure (api : Api)
    (Get : String → Except GoError String) (c : RequiredHeaderAuthService) (vars : Vars)
    (request : AuthorizationRequest) (e : GoError)
    (h : Get ("/instance/service-accounts/default/identity?audience="
      ++ ("https://" ++ targetHost request)) = Except.error e) :
    (Authorize api Get c vars (some request)).returned = some (api.UnauthorizedResponse, none)
    ∧ (Authorize api Get c vars (some request)).response = none
    ∧ (Authorize api Get c vars (some request)).panicked = false
    ∧ ∀ (Get2 : String → Except GoError String) (e2 : GoError),
        Get2 ("/instance/service-accounts/default/identity?audience="
          ++ ("https://" ++ targetHost request)) = Except.error e2 →
        Authorize api Get2 c vars (some request) = Authorize api Get c vars (some request) := by
  rw [Authorize_of_error api Get c vars request e h]
  refine ⟨rfl, rfl, rfl, ?_⟩
  intro Get2 e2 h2
  rw [Authorize_of_error api Get2 c vars request e2 h2]

theorem Authorize_denies_on_provider_failure_witness :
    alwaysFail (GoError.transport "connection refused")
        ("/instance/service-accounts/default/identity?audience="
          ++ ("https://" ++ targetHost (requestFor "svc.example.com" [] "GET" "/")))
      = Except.error (GoError.transport "connection refused")
    ∧ (Authorize sampleApi (alwaysFail (GoError.transport "connection refused")) sampleService
        sampleVars (some (requestFor "svc.example.com" [] "GET" "/"))).returned
      = some (sampleApi.UnauthorizedResponse, none) :=
  ⟨rfl, (Authorize_denies_on_provider_failure sampleApi
    (alwaysFail (GoError.transport "connection refused")) sampleService sampleVars
    (requestFor "svc.example.com" [] "GET" "/") (GoError.transport "connection refused")
    rfl).1⟩

/-! ## The decision on a provider success -/

/-- Claim C2, evaluated on the code: whenever `metadata.Get` answers with a token, the body of
`Authorize` builds the allow response and ends without a `return` statement, so no decision
is returned. For host `svc.example.com` and token `abc123` the response built carries the one
header (`Bearer: `, `abc123`) and nothing is returned. -/
theorem Authorize_success_ends_without_return :
    (∀ (api : Api) (Get : String → Except GoError String) (c : RequiredHeaderAuthService)
        (vars : Vars) (request : AuthorizationRequest) (idToken : String),
        Get ("/instance/service-accounts/default/identity?audience="
          ++ ("https://" ++ targetHost request)) = Except.ok idToken →
        (Authorize api Get c vars (some request)).returned = none)
    ∧ (Authorize sampleApi (alwaysToken "abc123") sampleService sampleVars
        (some (requestFor "svc.example.com" [] "GET" "/"))).returned = none
    ∧ (Authorize sampleApi (alwaysToken "abc123") sampleService sampleVars
        (some (requestFor "svc.example.com" [] "GET" "/"))).response
      = some { CheckResponse :=
          { Status := some { Code := 0 },
            HttpResponse := some (CheckResponseHttpResponse.OkResponse
              { Headers := [{ Header := some { Key := "Bearer: ", Value := "abc123" } }] }) } } := by
  refine ⟨?_, by decide, by decide⟩
  intro api Get c vars request idToken h
  rw [Authorize_of_ok api Get c vars request idToken h]

/-! ## The empty host -/

/-- Counterexample to claim C3: for a request whose host is empty and a provider that
answers with a token, `Authorize` does call the provider and does not return the deny
decision. -/
theorem Authorize_empty_host_reaches_provider :
    ¬ ((Authorize sampleApi (alwaysToken "abc123") sampleService sampleVars
          (some (requestFor "" [] "GET" "/"))).returned
        = some (sampleApi.UnauthorizedResponse, none)
      ∧ (Authorize sampleApi (alwaysToken "abc123") sampleService sampleVars
          (some (requestFor "" [] "GET" "/"))).requested = []) := by
  decide

/-- Claim C3 as amended: for every request whose target host is the empty string,
`Authorize` makes exactly one call to the provider, for the audience `https://`; it returns
the deny decision with a nil error when that call fails, and builds the allow response
carrying the token when it succeeds. -/
theorem Authorize_empty_host (api : Api) (Get : String → Except GoError String)
    (c : RequiredHeaderAuthService) (vars : Vars) (request : AuthorizationRequest)
    (hhost : targetHost request = "") :
    (Authorize api Get c vars (some request)).requested
      = ["/instance/service-accounts/default/identity?audience=https://"]
    ∧ (∀ e : GoError,
        Get "/instance/service-accounts/default/identity?audience=https://" = Except.error e →
        (Authorize api Get c vars (some request)).returned
          = some (api.UnauthorizedResponse, none))
    ∧ (∀ idToken : String,
        Get "/instance/service-accounts/default/identity?audience=https://" = Except.ok idToken →
        (Authorize api Get c vars (some request)).response
          = some { api.AuthorizedResponse with
              CheckResponse := { api.AuthorizedResponse.CheckResponse with
                HttpResponse := some (CheckResponseHttpResponse.OkResponse
                  { Headers := [{ Header := some { Key := "Bearer: ", Value := idToken } }] }) } }) := by
  have hpath : "/instance/service-accounts/default/identity?audience="
      ++ ("https://" ++ targetHost request)
      = "/instance/service-accounts/default/identity?audience=https://" := by
    rw [hhost]
    decide
  refine ⟨?_, ?_, ?_⟩
  · rw [Authorize_requested, hpath]
  · intro e he
    rw [← hpath] at he
    rw [Authorize_of_error api Get c vars request e he]
  · intro idToken hok
    rw [← hpath] at hok
    rw [Authorize_of_ok api Get c vars request idToken hok]

theorem Authorize_empty_host_witness :
    targetHost (requestFor "" [] "GET" "/") = ""
    ∧ (Authorize sampleApi (alwaysFail (GoError.NotDefinedError "identity")) sampleService
        sampleVars (some (requestFor "" [] "GET" "/"))).requested
      = ["/instance/service-accounts/default/identity?audience=https://"] :=
  ⟨rfl, (Authorize_empty_host sampleApi (alwaysFail (GoError.NotDefinedError "identity"))
    sampleService sampleVars (requestFor "" [] "GET" "/") rfl).1⟩

/-! ## The audience and the path -/

/-- Claim C4: for every request, with target host `h`, the audience that `Authorize` hands
to the provider is `"https://" ++ h`, placed unchanged after the literal text of the path;
two requests for which `Authorize` asks the same path have the same host, so distinct hosts
give distinct audiences. -/
theorem Authorize_audience_is_https_host (api : Api) (Get : String → Except GoError String)
    (c : RequiredHeaderAuthService) (vars : Vars) (request : AuthorizationRequest) :
    (Authorize api Get c vars (some request)).requested
      = ["/instance/service-accounts/default/identity?audience="
          ++ ("https://" ++ targetHost request)]
    ∧ ∀ (Get2 : String → Except GoError String) (c2 : RequiredHeaderAuthService)
        (vars2 : Vars) (request2 : AuthorizationRequest),
        (Authorize api Get2 c2 vars2 (some request2)).requested
          = (Authorize api Get c vars (some request)).requested →
        targetHost request2 = targetHost request := by
  refine ⟨Authorize_requested api Get c vars request, ?_⟩
  intro Get2 c2 vars2 request2 heq
  rw [Authorize_requested, Authorize_requested] at heq
  have h1 := List.head_eq_of_cons_eq heq
  exact String_append_left_cancel _ _ _ (String_append_left_cancel _ _ _ h1)


theorem urlEncodeChars_append (a b : List Char) :
    urlEncodeChars (a ++ b) = urlEncodeChars a ++ urlEncodeChars b := by
  induction a with
  | nil => rfl
  | cons ch rest ih => simp [urlEncodeChars, ih]

/-- Counterexample to claim C5: for host `svc.example.com` the path that `Authorize`
requests is not the literal text followed by the URL-encoded audience. -/
theorem Authorize_path_is_not_urlencoded :
    (Authorize sampleApi (alwaysToken "abc123") sampleService sampleVars
        (some (requestFor "svc.example.com" [] "GET" "/"))).requested
      ≠ ["/instance/service-accounts/default/identity?audience="
          ++ urlEncode ("https://" ++ "svc.example.com")] := by
  decide

/-- Claim C5 as amended: for every request, with target host `h`, the path that `Authorize`
requests from the provider is `/instance/service-accounts/default/identity?audience=`
followed by the audience `"https://" ++ h` as it is. No URL-encoding is applied: the path
never equals the one with the URL-encoded audience, and the characters of `h` end the path
unchanged. -/
theorem Authorize_path_is_verbatim (api : Api) (Get : String → Except GoError String)
    (c : RequiredHeaderAuthService) (vars : Vars) (request : AuthorizationRequest) :
    (Authorize api Get c vars (some request)).requested
      = ["/instance/service-accounts/default/identity?audience=https://"
          ++ targetHost request]
    ∧ (Authorize api Get c vars (some request)).requested
      ≠ ["/instance/service-accounts/default/identity?audience="
          ++ urlEncode ("https://" ++ targetHost request)]
    ∧ List.map (fun path => List.drop 61 path.toList)
        (Authorize api Get c vars (some request)).requested
      = [(targetHost request).toList] := by
  have hjoin : "/instance/service-accounts/default/identity?audience="
      ++ ("https://" ++ targetHost request)
      = "/instance/service-accounts/default/identity?audience=https://"
          ++ targetHost request := by
    apply String.ext
    simp only [String.data_append]
    rw [← List.append_assoc]
    rfl
  refine ⟨?_, ?_, ?_⟩
  · rw [Authorize_requested, hjoin]
  · rw [Authorize_requested]
    intro heq
    have h1 := String_append_left_cancel _ _ _ (List.head_eq_of_cons_eq heq)
    have h2 := congrArg String.data h1
    have henc : urlEncodeChars "https://".toList = "https%3A%2F%2F".toList := by decide
    have h3 : "https://".toList ++ (targetHost request).toList
        = "https%3A%2F%2F".toList ++ urlEncodeChars (targetHost request).toList := by
      have h4 : (urlEncode ("https://" ++ targetHost request)).data
          = urlEncodeChars ("https://".toList ++ (targetHost request).toList) := by
        simp only [urlEncode, String.toList, String.data_append]
      rw [h4, urlEncodeChars_append, henc, String.data_append] at h2
      exact h2
    have h5 : some ':' = some '%' := congrArg (fun l => List.get? l 5) h3
    exact absurd h5 (by decide)
  · rw [Authorize_requested, hjoin]
    have hlen : List.drop 61
        ("/instance/service-accounts/default/identity?audience=https://".toList
          ++ (targetHost request).toList) = (targetHost request).toList := by
      rfl
    simp only [List.map_cons, List.map_nil, String.toList, String.data_append]
    exact congrArg (fun l => [l]) hlen


/-! ## Independence from the configuration and the request headers -/

/-- Claim C6, evaluated on the code: the run of `Authorize` depends on the request through
its target host only and not on the service, so two services and two requests with the same
host get the same returned values, the same response and the same provider call. The
instance of the claim fails: for the service of the configuration with header `x-api-key` and
values `a`, `b`, a request without that header and a provider that succeeds, the allow
response is built and no decision is returned. -/
theorem Authorize_ignores_config_and_headers :
    (∀ (api : Api) (Get : String → Except GoError String)
        (c1 c2 : RequiredHeaderAuthService) (vars1 vars2 : Vars)
        (request1 request2 : AuthorizationRequest),
        targetHost request1 = targetHost request2 →
        (Authorize api Get c1 vars1 (some request1)).returned
          = (Authorize api Get c2 vars2 (some request2)).returned
        ∧ (Authorize api Get c1 vars1 (some request1)).response
          = (Authorize api Get c2 vars2 (some request2)).response
        ∧ (Authorize api Get c1 vars1 (some request1)).requested
          = (Authorize api Get c2 vars2 (some request2)).requested)
    ∧ GetAuthService (Interface.ptrConfig
        (some { RequiredHeader := "x-api-key", AllowedValues := ["a", "b"] }))
      = Outcome.returned (some sampleService, none)
    ∧ (Authorize sampleApi (alwaysToken "abc123") sampleService sampleVars
        (some (requestFor "svc.example.com" [("accept", "text/html")] "GET" "/"))).returned
      = none
    ∧ (Authorize sampleApi (alwaysToken "abc123") sampleService sampleVars
        (some (requestFor "svc.example.com" [("accept", "text/html")] "GET" "/"))).response
      = some { CheckResponse :=
          { Status := some { Code := 0 },
            HttpResponse := some (CheckResponseHttpResponse.OkResponse
              { Headers := [{ Header := some { Key := "Bearer: ", Value := "abc123" } }] }) } } := by
  refine ⟨?_, by decide, by decide, by decide⟩
  intro api Get c1 c2 vars1 vars2 request1 request2 hhost
  cases h : Get ("/instance/service-accounts/default/identity?audience="
      ++ ("https://" ++ targetHost request2)) with
  | error e =>
    have h1 := h
    rw [← hhost] at h1
    rw [Authorize_of_error api Get c1 vars1 request1 e h1,
      Authorize_of_error api Get c2 vars2 request2 e h, hhost]
    exact ⟨rfl, rfl, rfl⟩
  | ok t =>
    have h1 := h
    rw [← hhost] at h1
    rw [Authorize_of_ok api Get c1 vars1 request1 t h1,
      Authorize_of_ok api Get c2 vars2 request2 t h, hhost]
    exact ⟨rfl, rfl, rfl⟩

/-! ## Construction of the service -/

theorem Sprintf_unexpected_config_type (v : Interface) :
    Sprintf "unexpected config type %T" [Operand.dyn v]
      = "unexpected config type " ++ v.typeName := by
  have hsplit : "unexpected config type %T".toList
      = "unexpected config type ".toList ++ ['%', 'T'] := by decide
  have hlit : ∀ ch ∈ "unexpected config type ".toList, ch ≠ '%' := by decide
  have hverb : SprintfAux false ['%', 'T'] [Operand.dyn v] = v.typeName.toList := by
    simp [SprintfAux, verbText, extraText]
  have key : SprintfAux false "unexpected config type %T".toList [Operand.dyn v]
      = "unexpected config type ".toList ++ v.typeName.toList := by
    rw [hsplit, SprintfAux_literal _ _ _ hlit, hverb]
  apply String.ext
  rw [String.data_append]
  exact key

/-- Counterexample to claim C7: the nil pointer of type `*Config` passes the type assertion
and `GetAuthService` then panics on reading its fields, so it returns no service. -/
theorem GetAuthService_nil_pointer_panics :
    GetAuthService (Interface.ptrConfig none) = Outcome.panicked
    ∧ ¬ ∃ svc : RequiredHeaderAuthService,
        GetAuthService (Interface.ptrConfig none) = Outcome.returned (some svc, none) := by
  refine ⟨rfl, ?_⟩
  rintro ⟨svc, h⟩
  exact Outcome.noConfusion h

/-- Claim C7 as amended: `GetAuthService` returns an error if and only if the supplied
value is not a `*Config`. For a value of any other type it returns no service and the
`UnexpectedConfigError` of that value, whose message names the type; for every non-nil
`*Config`, the one of `NewConfigInstance` with its empty fields included, it returns a
service and a nil error. -/
theorem GetAuthService_fails_iff_not_config :
    (∀ c : Config, ∃ svc : RequiredHeaderAuthService,
        GetAuthService (Interface.ptrConfig (some c)) = Outcome.returned (some svc, none))
    ∧ (∀ v : Interface, (∀ p : Option Config, v ≠ Interface.ptrConfig p) →
        GetAuthService v = Outcome.returned (none, some (UnexpectedConfigError v)))
    ∧ (∀ v : Interface,
        (∃ (s : Option RequiredHeaderAuthService) (e : GoError),
            GetAuthService v = Outcome.returned (s, some e))
          ↔ ∀ p : Option Config, v ≠ Interface.ptrConfig p)
    ∧ GetAuthService NewConfigInstance.1
      = Outcome.returned (some { RequiredHeader := "", AllowedValues := [] }, none)
    ∧ (∀ v : Interface, UnexpectedConfigError v
        = GoError.errorString ("unexpected config type " ++ v.typeName)) := by
  have hother : ∀ v : Interface, (∀ p : Option Config, v ≠ Interface.ptrConfig p) →
      GetAuthService v = Outcome.returned (none, some (UnexpectedConfigError v)) := by
    intro v hv
    cases v with
    | nil => rfl
    | ptrConfig p => exact absurd rfl (hv p)
    | other t => rfl
  refine ⟨fun c => ⟨_, rfl⟩, hother, ?_, rfl, ?_⟩
  · intro v
    constructor
    · rintro ⟨s, e, h⟩ p hp
      subst hp
      cases p with
      | none => exact Outcome.noConfusion h
      | some c =>
        simp only [GetAuthService] at h
        injection h with h1
        injection h1 with h2 h3
        exact Option.noConfusion h3
    · intro hv
      exact ⟨none, UnexpectedConfigError v, hother v hv⟩
  · intro v
    simp only [UnexpectedConfigError, Sprintf_unexpected_config_type]

/-- Claim C8: for every `Config` the service that `GetAuthService` builds has the same
`RequiredHeader` and a map `AllowedValues` whose members are the elements of the sequence: a
string is mapped to `true` exactly when it occurs in the sequence, no string is mapped to
`false`, a string that does not occur is absent, each key has one entry, and the size of
the map is the number of distinct elements of the sequence. -/
theorem GetAuthService_builds_value_set (c : Config) :
    ∃ svc : RequiredHeaderAuthService,
      GetAuthService (Interface.ptrConfig (some c)) = Outcome.returned (some svc, none)
      ∧ svc.RequiredHeader = c.RequiredHeader
      ∧ (∀ v : String, GoMap.get? svc.AllowedValues v = some true ↔ v ∈ c.AllowedValues)
      ∧ (∀ v : String, GoMap.get? svc.AllowedValues v ≠ some false)
      ∧ (∀ v : String, GoMap.get? svc.AllowedValues v = none ↔ v ∉ c.AllowedValues)
      ∧ (∀ v : String, GoMap.index svc.AllowedValues v = true ↔ v ∈ c.AllowedValues)
      ∧ (GoMap.keys svc.AllowedValues).Nodup
      ∧ GoMap.len svc.AllowedValues = (List.dedup c.AllowedValues).length := by
  refine ⟨{ RequiredHeader := c.RequiredHeader,
            AllowedValues := rangeAssign [] c.AllowedValues }, rfl, rfl, ?_, ?_, ?_, ?_, ?_, ?_⟩
  · intro v
    show GoMap.get? (rangeAssign [] c.AllowedValues) v = some true ↔ _
    rw [rangeAssign_get?]
    by_cases h : v ∈ c.AllowedValues <;> simp [h, GoMap.get?]
  · intro v
    show GoMap.get? (rangeAssign [] c.AllowedValues) v ≠ some false
    rw [rangeAssign_get?]
    by_cases h : v ∈ c.AllowedValues <;> simp [h, GoMap.get?]
  · intro v
    show GoMap.get? (rangeAssign [] c.AllowedValues) v = none ↔ _
    rw [rangeAssign_get?]
    by_cases h : v ∈ c.AllowedValues <;> simp [h, GoMap.get?]
  · intro v
    show GoMap.index (rangeAssign [] c.AllowedValues) v = true ↔ _
    unfold GoMap.index
    rw [rangeAssign_get?]
    by_cases h : v ∈ c.AllowedValues <;> simp [h, GoMap.get?]
  · exact rangeAssign_nodup_keys c.AllowedValues [] (by simp [GoMap.keys])
  · exact rangeAssign_len c.AllowedValues

/-! ## Repeated calls -/

/-- Claim C9: `Authorize` leaves the fields of the service as they were, and a second call
with the same request and the same provider, made on the service and the variable that the
first call left, gives the same run: the same returned values, response and provider call.
The run does not depend on the content of the variable `rewrittenHost` before the call. -/
theorem Authorize_deterministic_stateless (api : Api) (Get : String → Except GoError String)
    (c : RequiredHeaderAuthService) (vars : Vars) (request : Option AuthorizationRequest) :
    (Authorize api Get c vars request).receiver = c
    ∧ Authorize api Get (Authorize api Get c vars request).receiver
        (Authorize api Get c vars request).vars request
      = Authorize api Get c vars request
    ∧ ∀ vars2 : Vars,
        (Authorize api Get c vars2 request).returned = (Authorize api Get c vars request).returned
        ∧ (Authorize api Get c vars2 request).response
          = (Authorize api Get c vars request).response
        ∧ (Authorize api Get c vars2 request).requested
          = (Authorize api Get c vars request).requested
        ∧ (Authorize api Get c vars2 request).receiver = c := by
  cases request with
  | none => exact ⟨rfl, rfl, fun _ => ⟨rfl, rfl, rfl, rfl⟩⟩
  | some request =>
    cases h : Get ("/instance/service-accounts/default/identity?audience="
        ++ ("https://" ++ targetHost request)) with
    | error e =>
      rw [Authorize_of_error api Get c vars request e h]
      refine ⟨rfl, ?_, ?_⟩
      · rw [Authorize_of_error api Get c _ request e h]
      · intro vars2
        rw [Authorize_of_error api Get c vars2 request e h]
        exact ⟨rfl, rfl, rfl, rfl⟩
    | ok t =>
      rw [Authorize_of_ok api Get c vars request t h]
      refine ⟨rfl, ?_, ?_⟩
      · rw [Authorize_of_ok api Get c _ request t h]
      · intro vars2
        rw [Authorize_of_ok api Get c vars2 request t h]
        exact ⟨rfl, rfl, rfl, rfl⟩

/-! ## The header built on success -/

/-- Claim C10, evaluated on the code: when `metadata.Get` answers with the token `T`, the
body of `Authorize` puts one header into the local `response`, with the literal key
`Bearer: ` and the value `T` as the provider returned it, and then ends without a `return`
statement: the header is built and never handed to the caller. For host `svc.example.com`
and the token ` abc123 ` the header (`Bearer: `, ` abc123 `) is in `response` and nothing
is returned. -/
theorem Authorize_bearer_header_is_not_returned :
    (∀ (api : Api) (Get : String → Except GoError String) (c : RequiredHeaderAuthService)
        (vars : Vars) (request : AuthorizationRequest) (T : String),
        Get ("/instance/service-accounts/default/identity?audience="
          ++ ("https://" ++ targetHost request)) = Except.ok T →
        (Authorize api Get c vars (some request)).returned = none
        ∧ ∃ (resp : AuthorizationResponse) (okr : OkHttpResponse),
          (Authorize api Get c vars (some request)).response = some resp
          ∧ resp.CheckResponse.HttpResponse
            = some (CheckResponseHttpResponse.OkResponse okr)
          ∧ okr.Headers
            = [{ Header := some { Key := "Bearer: ", Value := T }, Append := none }]
          ∧ okr.HeadersToRemove = []
          ∧ resp.CheckResponse.Status = api.AuthorizedResponse.CheckResponse.Status
          ∧ resp.UserID = api.AuthorizedResponse.UserID)
    ∧ (Authorize sampleApi (alwaysToken " abc123 ") sampleService sampleVars
        (some (requestFor "svc.example.com" [] "POST" "/orders"))).returned = none
    ∧ Option.map (fun resp => resp.CheckResponse.HttpResponse)
        (Authorize sampleApi (alwaysToken " abc123 ") sampleService sampleVars
          (some (requestFor "svc.example.com" [] "POST" "/orders"))).response
      = some (some (CheckResponseHttpResponse.OkResponse
          { Headers := [{ Header := some { Key := "Bearer: ", Value := " abc123 " } }] })) := by
  refine ⟨?_, by decide, by decide⟩
  intro api Get c vars request T h
  rw [Authorize_of_ok api Get c vars request T h]
  exact ⟨rfl, _, _, rfl, rfl, rfl, rfl, rfl, rfl⟩

end RequiredHeader
